import Mathlib

/-!
Shallow embedding of the document-intelligence RAG pipeline
(`src/document_processor.py`, `src/vector_store.py`, `src/rag_chain.py`)
together with theorems settling the specification claims about it.

External services (the vector store, the embedding service, the generation
service, the Pinecone provider) are modelled at their interface boundary as
explicit parameters; every call the embedded code makes to a service is
recorded in an event trace so that call-count properties can be stated.
-/

namespace DocIntel

/-! ## Data model

A LangChain `Document` is a `page_content` string plus a metadata dict.
Metadata is modelled as an association list of string keys and values;
`lookupMeta` is Python's `dict.get` (first matching key). -/

structure Document where
  page_content : String
  metadata : List (String × String)
deriving Repr, DecidableEq

def lookupMeta (m : List (String × String)) (key : String) : Option String :=
  match m with
  | [] => none
  | (k, v) :: rest => if k = key then some v else lookupMeta rest key

/-! ## Python string primitives

`pyIsSpace` is Python's `str.isspace` character class restricted to the ASCII
whitespace that `str.strip()` removes; `pyStrip` is `str.strip()`;
`pyJoin sep l` is Python's `sep.join(l)`. -/

def pyIsSpace (c : Char) : Bool :=
  c = ' ' || c = '\t' || c = '\n' || c = '\r' || c = '\x0b' || c = '\x0c'

def stripChars (l : List Char) : List Char :=
  (((l.dropWhile pyIsSpace).reverse).dropWhile pyIsSpace).reverse

def pyStrip (s : String) : String :=
  String.mk (stripChars s.data)

def pyJoin (sep : String) : List String → String
  | [] => ""
  | [x] => x
  | x :: y :: rest => x ++ sep ++ pyJoin sep (y :: rest)

/-- Python `len` of a string, as an integer (Python ints are unbounded). -/
def strLen (s : String) : Int :=
  (s.length : Int)

/-! ## `TechnicalQAChain._format_docs`

```python
formatted = []
for i, doc in enumerate(docs, 1):
    source = doc.metadata.get('source', 'Unknown')
    content = doc.page_content.strip()
    formatted.append(f"Document {i} (Source: {source}):\n{content}")
return "\n\n".join(formatted)
```
-/

def formatDocBlock (i : Nat) (doc : Document) : String :=
  let source := (lookupMeta doc.metadata "source").getD "Unknown"
  let content := pyStrip doc.page_content
  "Document " ++ toString i ++ " (Source: " ++ source ++ "):\n" ++ content

def formatDocsLoop (docs : List Document) (i : Nat) (formatted : List String) : List String :=
  match docs with
  | [] => formatted
  | doc :: rest => formatDocsLoop rest (i + 1) (formatted ++ [formatDocBlock i doc])

def format_docs (docs : List Document) : String :=
  pyJoin "\n\n" (formatDocsLoop docs 1 [])

/-- The spec's claimed rendering of one context block: the document's content
verbatim after the header line (no stripping mentioned). Spec-side definition,
kept to compare with the implementation's `formatDocBlock`. -/
def formatDocBlockSpec (i : Nat) (doc : Document) : String :=
  let source := (lookupMeta doc.metadata "source").getD "Unknown"
  "Document " ++ toString i ++ " (Source: " ++ source ++ "):\n" ++ doc.page_content

/-- The spec's claimed `format_context`: claimed blocks joined by blank lines in
retrieval order. Spec-side definition for the refinement comparison. -/
def format_docs_spec (docs : List Document) : String :=
  pyJoin "\n\n" ((List.enumFrom 1 docs).map fun p => formatDocBlockSpec p.1 p.2)

/-! ## Python exceptions

The exception classes relevant to the claims. `valueError` is Python's
built-in `ValueError` (raised by LangChain's `TextSplitter.__init__`);
`providerError` stands for whatever exception an external service
(embedding / vector index / generation client) raises; `configurationError`
and `retrievalError` are the spec's error taxonomy names — the repository
itself defines no exception class with either name. -/

inductive PyError where
  | valueError (msg : String)
  | providerError (msg : String)
  | configurationError (msg : String)
  | retrievalError (msg : String)
deriving Repr, DecidableEq

/-! ## Prompt templates and prompt formatting (`src/rag_chain.py`)

The two template string literals, verbatim (`\x7b`/`\x7d` are the literal
brace characters of the Python source). -/

def CHAIN_OF_THOUGHT_TEMPLATE : String :=
  "You are a technical expert assistant. Answer the question using the provided context documents.\n\nUse chain-of-thought reasoning:\n1. First, identify the key technical concepts in the question\n2. Then, analyze the relevant information from the context\n3. Finally, provide a clear, accurate answer\n\nContext Documents:\n\x7bcontext\x7d\n\nQuestion: \x7bquestion\x7d\n\nTechnical Analysis:\nLet me break this down step by step:\n\n1. Key Concepts: [Identify the main technical concepts in the question]\n\n2. Relevant Information: [Extract and analyze relevant details from the context]\n\n3. Answer: [Provide a clear, comprehensive answer]\n\nPlease provide your response following this chain-of-thought structure."

def FAST_COT_TEMPLATE : String :=
  "Answer this technical question using the context.\n\nContext: \x7bcontext\x7d\n\nQuestion: \x7bquestion\x7d\n\nAnswer:"

/-- `ChatPromptTemplate.from_template(tmpl).format(context=ctx, question=q)`:
simultaneous substitution of the two placeholders; only the template text is
scanned for placeholders, the substituted values are inserted verbatim. -/
def formatPrompt (tmpl ctx question : String) : String :=
  pyJoin ctx
    ((tmpl.splitOn "\x7bcontext\x7d").map fun part =>
      pyJoin question (part.splitOn "\x7bquestion\x7d"))

/-! ## External service boundaries

`VectorStore.search` is `vectorstore.similarity_search(query, k=k)`; the same
function also backs the retriever the chain is built from
(`as_retriever(search_type="similarity", search_kwargs={"k": k})`), since both
issue a similarity search with the same arguments against the same store.
`GenService.fragments` is the generation service's underlying output for a
prompt, as the sequence of streamed fragments; a synchronous completion of the
same output is the concatenation of the fragments. -/

structure VectorStore where
  search : String → Nat → Except PyError (List Document)

structure GenService where
  fragments : String → List String

/-- One call the pipeline makes to an external service. -/
inductive Event where
  | retrieval (query : String) (k : Nat)
  | generation (prompt : String)
deriving Repr, DecidableEq

def Event.isRetrieval : Event → Bool
  | .retrieval _ _ => true
  | .generation _ => false

def Event.isGeneration : Event → Bool
  | .retrieval _ _ => false
  | .generation _ => true

def retrievalCount (evs : List Event) : Nat :=
  (evs.filter Event.isRetrieval).length

def generationCount (evs : List Event) : Nat :=
  (evs.filter Event.isGeneration).length

/-! ## `TechnicalQAChain` (`src/rag_chain.py`)

The constructor stores the vector store handle, `docs_to_retrieve = k`, the
LLM configuration and the prompt template, then builds the LCEL chain
`{context: retriever | _format_docs, question: passthrough} | prompt | llm |
StrOutputParser()`. The chain is determined by the stored configuration, so
the embedded state is that configuration. -/

structure TechnicalQAChain where
  model_name : String
  temperature : ℚ
  docs_to_retrieve : Nat
  promptTmpl : String
deriving Repr, DecidableEq

/-- `TechnicalQAChain.__init__(vectorstore, model_name, temperature, k)`
(defaults `"gpt-4-turbo-preview"`, `0`, `4`): stores `k` and installs the
chain-of-thought prompt template. -/
def TechnicalQAChain_init (model_name : String) (temperature : ℚ) (k : Nat) :
    TechnicalQAChain :=
  { model_name := model_name
    temperature := temperature
    docs_to_retrieve := k
    promptTmpl := CHAIN_OF_THOUGHT_TEMPLATE }

/-- `FastTechnicalQAChain.__init__(vectorstore, **kwargs)`: forces
`model_name = 'gpt-3.5-turbo'` and `k = 3`, runs the parent constructor, then
overrides the prompt with `FAST_COT_TEMPLATE` and rebuilds the chain. -/
def FastTechnicalQAChain_init (temperature : ℚ) : TechnicalQAChain :=
  let base := TechnicalQAChain_init "gpt-3.5-turbo" temperature 3
  { base with promptTmpl := FAST_COT_TEMPLATE }

/-- `self.chain.invoke(question)`: the retriever issues a similarity search
with the stored `k`; on success the documents are formatted into the context,
the prompt is formatted, and the LLM is invoked for the complete answer (the
concatenation of the underlying output's fragments, via `StrOutputParser`).
A retrieval exception propagates before any generation call. Returns the
result together with the trace of external calls. -/
def chain_invoke (ch : TechnicalQAChain) (vs : VectorStore) (gen : GenService)
    (question : String) : Except PyError String × List Event :=
  match vs.search question ch.docs_to_retrieve with
  | .error e => (.error e, [.retrieval question ch.docs_to_retrieve])
  | .ok docs =>
    let context := format_docs docs
    let promptText := formatPrompt ch.promptTmpl context question
    (.ok (String.join (gen.fragments promptText)),
     [.retrieval question ch.docs_to_retrieve, .generation promptText])

/-- `self.chain.stream(question)`: same retrieval and prompt construction,
but the generation output is delivered as its fragments. -/
def chain_stream (ch : TechnicalQAChain) (vs : VectorStore) (gen : GenService)
    (question : String) : Except PyError (List String) × List Event :=
  match vs.search question ch.docs_to_retrieve with
  | .error e => (.error e, [.retrieval question ch.docs_to_retrieve])
  | .ok docs =>
    let context := format_docs docs
    let promptText := formatPrompt ch.promptTmpl context question
    (.ok (gen.fragments promptText),
     [.retrieval question ch.docs_to_retrieve, .generation promptText])

/-- A Python value appearing in the dict returned by `query`. -/
inductive PyValue where
  | str (s : String)
  | num (q : ℚ)
  | docList (ds : List Document)
deriving Repr, DecidableEq

/-- Lookup in the returned dict. -/
def pyLookup (r : List (String × PyValue)) (key : String) : Option PyValue :=
  match r with
  | [] => none
  | (k, v) :: rest => if k = key then some v else pyLookup rest key

def resultLookup (r : Except PyError (List (String × PyValue))) (key : String) :
    Option PyValue :=
  match r with
  | .error _ => none
  | .ok res => pyLookup res key

def resultKeys (r : Except PyError (List (String × PyValue))) :
    Except PyError (List String) :=
  r.map fun res => res.map Prod.fst

/-- `TechnicalQAChain.query(question)`:

```python
start_time = time.time()
docs = self.vectorstore.similarity_search(question, k=self.docs_to_retrieve)
answer = self.chain.invoke(question)
end_time = time.time()
total_time = end_time - start_time
return {"answer": answer, "latency": total_time, "documents": docs}
```

The two clock readings are the parameters `start_time` (taken at entry) and
`end_time` (taken after the chain invocation returns); wall-clock time is
modelled as an exact rational. An exception from either call propagates. -/
def query (ch : TechnicalQAChain) (vs : VectorStore) (gen : GenService)
    (start_time end_time : ℚ) (question : String) :
    Except PyError (List (String × PyValue)) × List Event :=
  match vs.search question ch.docs_to_retrieve with
  | .error e => (.error e, [.retrieval question ch.docs_to_retrieve])
  | .ok docs =>
    match chain_invoke ch vs gen question with
    | (.error e, evs) =>
      (.error e, .retrieval question ch.docs_to_retrieve :: evs)
    | (.ok answer, evs) =>
      (.ok [("answer", .str answer),
            ("latency", .num (end_time - start_time)),
            ("documents", .docList docs)],
       .retrieval question ch.docs_to_retrieve :: evs)

/-- `TechnicalQAChain.stream_query(question)`: yields each chunk of
`self.chain.stream(question)`. -/
def stream_query (ch : TechnicalQAChain) (vs : VectorStore) (gen : GenService)
    (question : String) : Except PyError (List String) × List Event :=
  chain_stream ch vs gen question

/-! ## `VectorStoreManager.create_index` (`src/vector_store.py`)

The Pinecone provider is modelled by the list of existing index names; an
index created by `pc.create_index` is listed from then on and is immediately
ready, so the readiness poll (`while not pc.describe_index(...).status['ready']:
time.sleep(1)`) issues one describe call and exits. -/

structure PineconeState where
  indexes : List String
deriving Repr, DecidableEq

inductive PCEvent where
  | list_indexes
  | create_index (name : String) (dimension : Int) (metric : String)
  | describe_index (name : String)
deriving Repr, DecidableEq

def PCEvent.isCreate : PCEvent → Bool
  | .create_index _ _ _ => true
  | _ => false

def createCount (evs : List PCEvent) : Nat :=
  (evs.filter PCEvent.isCreate).length

structure VectorStoreManager where
  index_name : String
deriving Repr, DecidableEq

/-- `VectorStoreManager.create_index(dimension=1536, metric="cosine")`:

```python
existing_indexes = [index.name for index in self.pc.list_indexes()]
if self.index_name not in existing_indexes:
    self.pc.create_index(name=self.index_name, dimension=dimension, metric=metric, spec=...)
    while not self.pc.describe_index(self.index_name).status['ready']:
        time.sleep(1)
```

Returns the provider state after the call and the trace of provider calls. -/
def VSM_create_index (m : VectorStoreManager) (st : PineconeState)
    (dimension : Int) (metric : String) : PineconeState × List PCEvent :=
  let existing_indexes := st.indexes
  if m.index_name ∈ existing_indexes then
    (st, [.list_indexes])
  else
    ({ indexes := st.indexes ++ [m.index_name] },
     [.list_indexes, .create_index m.index_name dimension metric,
      .describe_index m.index_name])

/-! ## `DocumentProcessor.__init__` (`src/document_processor.py`)

```python
self.chunk_size = chunk_size
self.chunk_overlap = chunk_overlap
self.text_splitter = RecursiveCharacterTextSplitter(
    chunk_size=chunk_size, chunk_overlap=chunk_overlap,
    length_function=len, separators=["\n\n", "\n", " ", ""])
```

LangChain's `TextSplitter.__init__` performs the only construction-time
validation: it raises `ValueError` when `chunk_overlap > chunk_size`, and
nothing else; `RecursiveCharacterTextSplitter` keeps its default
`keep_separator=True` and `strip_whitespace=True`. -/

structure TextSplitterParams where
  chunk_size : Int
  chunk_overlap : Int
  separators : List String
deriving Repr, DecidableEq

def RecursiveCharacterTextSplitter_init (chunk_size chunk_overlap : Int)
    (separators : List String) : Except PyError TextSplitterParams :=
  if chunk_overlap > chunk_size then
    .error (.valueError
      "Got a larger chunk overlap than chunk size, should be smaller.")
  else
    .ok { chunk_size := chunk_size, chunk_overlap := chunk_overlap,
          separators := separators }

structure DocumentProcessor where
  chunk_size : Int
  chunk_overlap : Int
  text_splitter : TextSplitterParams
deriving Repr, DecidableEq

def DEFAULT_SEPARATORS : List String := ["\n\n", "\n", " ", ""]

def DocumentProcessor_init (chunk_size chunk_overlap : Int) :
    Except PyError DocumentProcessor :=
  match RecursiveCharacterTextSplitter_init chunk_size chunk_overlap DEFAULT_SEPARATORS with
  | .error e => .error e
  | .ok ts =>
    .ok { chunk_size := chunk_size, chunk_overlap := chunk_overlap,
          text_splitter := ts }

/-! ## LangChain `RecursiveCharacterTextSplitter.split_text`

Embedded from `langchain_text_splitters` (`character.py` / `base.py`) as
configured by `DocumentProcessor`: `length_function=len`,
`keep_separator=True`, `is_separator_regex=False`, `strip_whitespace=True`,
`add_start_index=False`. -/

/-- `re.search(re.escape(sep), text)` for a non-regex separator: substring
occurrence. -/
def occursIn (sep text : String) : Bool :=
  2 ≤ (text.splitOn sep).length

/-- The separator-selection loop of `_split_text`: starting from the default
`separators[-1]`, pick the first separator that is `""` (with no remaining
separators) or occurs in the text (with the rest of the list as
`new_separators`); if none matches, keep the default with no remaining
separators. -/
def chooseSepAux (text dflt : String) : List String → String × List String
  | [] => (dflt, [])
  | s :: rest =>
    if s = "" then (s, [])
    else if occursIn s text then (s, rest)
    else chooseSepAux text dflt rest

def chooseSep (separators : List String) (text : String) : String × List String :=
  chooseSepAux text (separators.getLastD "") separators

/-- `_split_text_with_regex(text, re.escape(sep), keep_separator=True)`:
`re.split` with a capturing group keeps the delimiters, and the kept
delimiter is prepended to the following piece; empty pieces are dropped.
An empty separator splits into the individual characters. -/
def splitWithSep (text sep : String) : List String :=
  let splits :=
    if sep = "" then
      text.data.map fun c => String.mk [c]
    else
      match text.splitOn sep with
      | [] => []
      | a :: rest => a :: rest.map fun s => sep ++ s
  splits.filter fun s => s != ""

/-- `_join_docs(docs, separator)`: join, strip whitespace, drop if empty. -/
def joinDocs (docs : List String) (separator : String) : Option String :=
  let text := pyStrip (pyJoin separator docs)
  if text = "" then none else some text

def appendJoin (docs current : List String) (separator : String) : List String :=
  match joinDocs current separator with
  | none => docs
  | some doc => docs ++ [doc]

/-- The overlap-popping `while` loop inside `_merge_splits`: pop elements from
the front of `current_doc` while the running total exceeds `chunk_overlap`, or
appending the next split would exceed `chunk_size` and something is left to
pop. (With an empty `current_doc` the loop condition is false in every state
the merge loop reaches, so the empty case returns unchanged.) -/
def popWhile (cs co sepLen lenD : Int) : List String → Int → List String × Int
  | [], total => ([], total)
  | c :: rest, total =>
    if total > co ∨ (total + lenD + sepLen > cs ∧ total > 0) then
      popWhile cs co sepLen lenD rest
        (total - (strLen c + if rest.length > 0 then sepLen else 0))
    else (c :: rest, total)

/-- The `for d in splits` loop of `_merge_splits`: when appending `d` would
push the running total past `chunk_size` and the current window is nonempty,
flush the joined window to the output and shrink the window to the configured
overlap; then append `d` and continue. -/
def mergeLoop (cs co : Int) (separator : String) :
    List String → List String → List String → Int → List String
  | [], docs, current, _total => appendJoin docs current separator
  | d :: rest, docs, current, total =>
    let sepLen := strLen separator
    let lenD := strLen d
    if total + lenD + (if current.length > 0 then sepLen else 0) > cs
        ∧ current.length > 0 then
      let docs2 := appendJoin docs current separator
      let p := popWhile cs co sepLen lenD current total
      mergeLoop cs co separator rest docs2 (p.1 ++ [d])
        (p.2 + lenD + (if p.1.length > 0 then sepLen else 0))
    else
      mergeLoop cs co separator rest docs (current ++ [d])
        (total + lenD + (if current.length > 0 then sepLen else 0))

/-- `_merge_splits(splits, separator)`. -/
def mergeSplits (cs co : Int) (splits : List String) (separator : String) :
    List String :=
  mergeLoop cs co separator splits [] [] 0

/-- The `for s in splits` loop of `_split_text`, with each split paired with
the result recursion would give on it (`[s]` itself when there are no
`new_separators`): splits shorter than `chunk_size` accumulate as good
splits; a long split first flushes the merged good splits, then contributes
its recursive result. Good splits merge with separator `""` because
`keep_separator=True`. -/
def processPairs (cs co : Int) : List (String × List String) → List String → List String
  | [], good => if good.isEmpty then [] else mergeSplits cs co good ""
  | (s, r) :: rest, good =>
    if strLen s < cs then processPairs cs co rest (good ++ [s])
    else
      (if good.isEmpty then [] else mergeSplits cs co good "")
        ++ r ++ processPairs cs co rest []

theorem chooseSepAux_rest_length (text dflt : String) :
    ∀ (seps : List String) (s1 : String) (rest : List String),
      (chooseSepAux text dflt seps).2 = s1 :: rest →
      (s1 :: rest).length < seps.length := by
  intro seps
  induction seps with
  | nil => intro s1 rest h; simp [chooseSepAux] at h
  | cons s ss ih =>
    intro s1 rest h
    by_cases h1 : s = ""
    · simp [chooseSepAux, h1] at h
    · by_cases h2 : occursIn s text
      · have hss : ss = s1 :: rest := by simpa [chooseSepAux, h1, h2] using h
        subst hss
        simp only [List.length_cons]
        omega
      · have h3 := ih s1 rest (by simpa [chooseSepAux, h1, h2] using h)
        simp only [List.length_cons] at h3 ⊢
        omega

theorem chooseSep_rest_length (separators : List String) (text s1 : String)
    (rest : List String) (h : (chooseSep separators text).2 = s1 :: rest) :
    (s1 :: rest).length < separators.length :=
  chooseSepAux_rest_length text _ separators s1 rest h

theorem chooseSep_rest_length_ne (separators : List String) (text : String)
    (h : (chooseSep separators text).2 ≠ []) :
    (chooseSep separators text).2.length < separators.length := by
  rcases hp : (chooseSep separators text).2 with _ | ⟨s1, rest⟩
  · exact absurd hp h
  · exact chooseSep_rest_length separators text s1 rest hp

/-- `_split_text(text, separators)`: choose the working separator, split the
text on it, then process the splits in order: a split shorter than
`chunk_size` is a good split (merged later), an overlong split is recursed
into with the remaining separators when there are any, else emitted as is.
The remaining-separator list is the same for every split of one level, so
the `new_separators` check is hoisted out of the loop. -/
def splitTextRec (cs co : Int) (separators : List String) (text : String) :
    List String :=
  let splits := splitWithSep text (chooseSep separators text).1
  if h : (chooseSep separators text).2 = [] then
    processPairs cs co (splits.map fun s => (s, [s])) []
  else
    processPairs cs co
      (splits.map fun s => (s, splitTextRec cs co (chooseSep separators text).2 s)) []
termination_by separators.length
decreasing_by
  exact chooseSep_rest_length_ne separators text h

/-- `RecursiveCharacterTextSplitter.split_text(text)`. -/
def split_text (ts : TextSplitterParams) (text : String) : List String :=
  splitTextRec ts.chunk_size ts.chunk_overlap ts.separators text

/-- `TextSplitter.create_documents(texts, metadatas)` with
`add_start_index=False`: for each text in order, one `Document` per chunk of
`split_text`, carrying a copy of that text's metadata. -/
def create_documents (ts : TextSplitterParams) (texts : List String)
    (metadatas : List (List (String × String))) : List Document :=
  ((texts.zip metadatas).map fun p =>
    (split_text ts p.1).map fun chunk => Document.mk chunk p.2).flatten

/-- `TextSplitter.split_documents(documents)`: collect contents and metadata
lists, then `create_documents`. -/
def split_documents (ts : TextSplitterParams) (documents : List Document) :
    List Document :=
  create_documents ts (documents.map (·.page_content))
    (documents.map (·.metadata))

/-- `DocumentProcessor.chunk_documents(documents)`. -/
def chunk_documents (dp : DocumentProcessor) (documents : List Document) :
    List Document :=
  split_documents dp.text_splitter documents

/-! ## Concrete fixtures used by witnesses and counterexamples -/

def docA : Document :=
  { page_content := "The API uses OAuth2 bearer tokens."
    metadata := [("source", "api.md")] }

/-- A deterministic store whose similarity search always returns `[docA]`. -/
def vsA : VectorStore := { search := fun _ _ => .ok [docA] }

/-- A store whose similarity search raises (embedding service unreachable). -/
def vsErr : VectorStore :=
  { search := fun _ _ => .error (.providerError "embedding service unreachable") }

/-- A generation service producing a fixed two-fragment output. -/
def genA : GenService := { fragments := fun _ => ["Hello", " world"] }

def chainA : TechnicalQAChain := TechnicalQAChain_init "gpt-4-turbo-preview" 0 4

def fastA : TechnicalQAChain := FastTechnicalQAChain_init 0

def isRetrievalErrorResult : Except PyError (List (String × PyValue)) → Bool
  | .error (.retrievalError _) => true
  | _ => false

/-! ## Claim C2 -/

/-- C2, counterexample: `DocumentProcessor(chunk_size=0, chunk_overlap=0)` has
`chunk_size ≤ 0`, yet construction succeeds — no `ConfigurationError` (indeed
no exception at all) is raised; likewise `chunk_overlap = -1 < 0` constructs
fine with `chunk_size = 5`. -/
theorem C2_counterexample :
    DocumentProcessor_init 0 0 =
      .ok { chunk_size := 0, chunk_overlap := 0,
            text_splitter := { chunk_size := 0, chunk_overlap := 0,
                               separators := DEFAULT_SEPARATORS } } ∧
    DocumentProcessor_init 5 (-1) =
      .ok { chunk_size := 5, chunk_overlap := -1,
            text_splitter := { chunk_size := 5, chunk_overlap := -1,
                               separators := DEFAULT_SEPARATORS } } := by
  constructor <;> rfl

/-- C2, amended: construction performs no parameter validation of its own.
Whenever `chunk_overlap ≤ chunk_size` — including every `chunk_size ≤ 0` and
every `chunk_overlap < 0` in that region — construction succeeds; the only
construction-time failure is the `ValueError` LangChain's `TextSplitter`
raises when `chunk_overlap > chunk_size`, never a `ConfigurationError`. -/
theorem C2_theorem (chunk_size chunk_overlap : Int) :
    (chunk_overlap ≤ chunk_size →
      DocumentProcessor_init chunk_size chunk_overlap =
        .ok { chunk_size := chunk_size, chunk_overlap := chunk_overlap,
              text_splitter := { chunk_size := chunk_size,
                                 chunk_overlap := chunk_overlap,
                                 separators := DEFAULT_SEPARATORS } }) ∧
    (chunk_size < chunk_overlap →
      DocumentProcessor_init chunk_size chunk_overlap =
        .error (.valueError
          "Got a larger chunk overlap than chunk size, should be smaller.")) := by
  refine ⟨fun h => ?_, fun h => ?_⟩
  · unfold DocumentProcessor_init RecursiveCharacterTextSplitter_init
    rw [if_neg (by omega)]
  · unfold DocumentProcessor_init RecursiveCharacterTextSplitter_init
    rw [if_pos (by omega)]

/-- C2, witness: the default parameters `(1000, 200)` construct successfully. -/
theorem C2_witness :
    DocumentProcessor_init 1000 200 =
      .ok { chunk_size := 1000, chunk_overlap := 200,
            text_splitter := { chunk_size := 1000, chunk_overlap := 200,
                               separators := DEFAULT_SEPARATORS } } :=
  (C2_theorem 1000 200).1 (by norm_num)

/-! ## Claim C7 -/

/-- C7: calling `create_index` twice in a row with the same parameters issues
exactly one index-creation call to the provider across the two calls, the
second call performs no creation (it only lists) and leaves the provider
state unchanged, and — for any provider state — a creation call is issued
only when the index name is absent from the listed indexes. -/
theorem C7_theorem (m : VectorStoreManager) (st : PineconeState)
    (dimension : Int) (metric : String)
    (habs : m.index_name ∉ st.indexes) :
    createCount ((VSM_create_index m st dimension metric).2 ++
      (VSM_create_index m (VSM_create_index m st dimension metric).1
        dimension metric).2) = 1 ∧
    (VSM_create_index m (VSM_create_index m st dimension metric).1
      dimension metric).2 = [.list_indexes] ∧
    (VSM_create_index m (VSM_create_index m st dimension metric).1
      dimension metric).1 = (VSM_create_index m st dimension metric).1 ∧
    (∀ st' : PineconeState, m.index_name ∈ st'.indexes →
      createCount (VSM_create_index m st' dimension metric).2 = 0) := by
  have h1 : VSM_create_index m st dimension metric =
      ({ indexes := st.indexes ++ [m.index_name] },
       [.list_indexes, .create_index m.index_name dimension metric,
        .describe_index m.index_name]) := by
    simp [VSM_create_index, habs]
  have hmem : m.index_name ∈ st.indexes ++ [m.index_name] := by simp
  refine ⟨?_, ?_, ?_, ?_⟩
  · rw [h1]
    simp [VSM_create_index, hmem, createCount, PCEvent.isCreate]
  · rw [h1]; simp [VSM_create_index, hmem]
  · rw [h1]; simp [VSM_create_index, hmem]
  · intro st' hmem'
    simp [VSM_create_index, hmem', createCount, PCEvent.isCreate]

/-- C7, witness: a fresh provider and the index name `document-intelligence`. -/
theorem C7_witness :
    createCount ((VSM_create_index ⟨"document-intelligence"⟩ ⟨[]⟩ 1536 "cosine").2 ++
      (VSM_create_index ⟨"document-intelligence"⟩
        (VSM_create_index ⟨"document-intelligence"⟩ ⟨[]⟩ 1536 "cosine").1
        1536 "cosine").2) = 1 ∧
    (VSM_create_index ⟨"document-intelligence"⟩
      (VSM_create_index ⟨"document-intelligence"⟩ ⟨[]⟩ 1536 "cosine").1
      1536 "cosine").2 = [.list_indexes] := by
  have h := C7_theorem ⟨"document-intelligence"⟩ ⟨[]⟩ 1536 "cosine" (by simp)
  exact ⟨h.1, h.2.1⟩

/-! ## Claim C8 -/

theorem formatDocsLoop_eq (docs : List Document) :
    ∀ (i : Nat) (acc : List String),
      formatDocsLoop docs i acc =
        acc ++ (List.enumFrom i docs).map fun p => formatDocBlock p.1 p.2 := by
  induction docs with
  | nil => intro i acc; simp [formatDocsLoop, List.enumFrom]
  | cons d rest ih =>
    intro i acc
    simp [formatDocsLoop, List.enumFrom, ih]

/-- C8, counterexample: a document whose content ends in a newline. The
implementation strips the content before rendering, so the rendered block is
not the header followed by the document's content verbatim, as the claim
states (compare `format_docs_spec`, the claim's rendering). -/
theorem C8_counterexample :
    format_docs [{ page_content := "hello\n", metadata := [("source", "manual.pdf")] }] =
      "Document 1 (Source: manual.pdf):\nhello" ∧
    format_docs_spec [{ page_content := "hello\n", metadata := [("source", "manual.pdf")] }] =
      "Document 1 (Source: manual.pdf):\nhello\n" ∧
    format_docs [{ page_content := "hello\n", metadata := [("source", "manual.pdf")] }] ≠
      format_docs_spec [{ page_content := "hello\n", metadata := [("source", "manual.pdf")] }] := by
  refine ⟨by rfl, by rfl, by decide⟩

/-- C8, amended: `format_docs` renders document `i` (1-based) as the block
`"Document i (Source: <source>):"` followed by a newline and the document's
content with leading and trailing whitespace stripped, joins the blocks with
blank lines, and preserves the order of the input sequence. -/
theorem C8_theorem (docs : List Document) :
    format_docs docs =
      pyJoin "\n\n" ((List.enumFrom 1 docs).map fun p =>
        "Document " ++ toString p.1 ++ " (Source: "
          ++ ((lookupMeta p.2.metadata "source").getD "Unknown") ++ "):\n"
          ++ pyStrip p.2.page_content) := by
  simp only [format_docs, formatDocsLoop_eq, List.nil_append]
  rfl

/-! ## Claim C10 -/

theorem head?_dropWhile_eq_some (p : Char → Bool) (l : List Char) (a : Char)
    (h : (l.dropWhile p).head? = some a) : p a = false := by
  have hw := List.head?_dropWhile_not p l
  rw [h] at hw
  exact hw

theorem stripChars_head_not_space (l : List Char) (a : Char)
    (h : (stripChars l).head? = some a) : pyIsSpace a = false := by
  unfold stripChars at h
  rw [List.head?_reverse] at h
  obtain ⟨t, ht⟩ :=
    List.dropWhile_suffix (l := (l.dropWhile pyIsSpace).reverse) pyIsSpace
  rcases hd : (l.dropWhile pyIsSpace).reverse.dropWhile pyIsSpace with _ | ⟨c, cs⟩
  · rw [hd] at h; simp at h
  · rw [hd] at h ht
    have h2 : ((l.dropWhile pyIsSpace).reverse).getLast? = some a := by
      rw [← ht, List.getLast?_append, h]
      rfl
    rw [List.getLast?_reverse] at h2
    exact head?_dropWhile_eq_some pyIsSpace l a h2

theorem stripChars_getLast_not_space (l : List Char) (a : Char)
    (h : (stripChars l).getLast? = some a) : pyIsSpace a = false := by
  unfold stripChars at h
  rw [List.getLast?_reverse] at h
  exact head?_dropWhile_eq_some pyIsSpace _ a h

theorem stripChars_infix (l : List Char) :
    ∃ pre post : List Char, l = pre ++ stripChars l ++ post := by
  obtain ⟨t1, ht1⟩ := List.dropWhile_suffix (l := l) pyIsSpace
  obtain ⟨t2, ht2⟩ :=
    List.dropWhile_suffix (l := (l.dropWhile pyIsSpace).reverse) pyIsSpace
  have h1 : l.dropWhile pyIsSpace = stripChars l ++ t2.reverse := by
    unfold stripChars
    have h3 := congrArg List.reverse ht2
    simpa [List.reverse_append] using h3.symm
  refine ⟨t1, t2.reverse, ?_⟩
  calc l = t1 ++ l.dropWhile pyIsSpace := ht1.symm
    _ = t1 ++ (stripChars l ++ t2.reverse) := by rw [h1]
    _ = t1 ++ stripChars l ++ t2.reverse := by rw [List.append_assoc]

/-- C10: in `_format_docs` each document's content is stripped of leading and
trailing whitespace before rendering (the stripped content is a contiguous
substring of the original whose first and last characters, when present, are
not whitespace), and a document whose metadata lacks a `source` key renders
with the literal source string `"Unknown"` rather than failing. -/
theorem C10_theorem (c : String) (m : List (String × String)) (i : Nat) :
    (lookupMeta m "source" = none →
      formatDocBlock i { page_content := c, metadata := m } =
        "Document " ++ toString i ++ " (Source: Unknown):\n" ++ pyStrip c) ∧
    (∃ pre post : List Char, c.data = pre ++ (pyStrip c).data ++ post) ∧
    (∀ a, ((pyStrip c).data.head? = some a) → pyIsSpace a = false) ∧
    (∀ a, ((pyStrip c).data.getLast? = some a) → pyIsSpace a = false) := by
  refine ⟨fun h => ?_, ?_, fun a ha => ?_, fun a ha => ?_⟩
  · simp only [formatDocBlock, h, Option.getD]
    congr 1
    simp only [String.append_assoc]
    rfl
  · simpa [pyStrip] using stripChars_infix c.data
  · exact stripChars_head_not_space c.data a (by simpa [pyStrip] using ha)
  · exact stripChars_getLast_not_space c.data a (by simpa [pyStrip] using ha)

/-- C10, witness: content `" x "` with no `source` key renders with source
`Unknown` and the content stripped to `"x"`. -/
theorem C10_witness :
    formatDocBlock 1 { page_content := " x ", metadata := [] } =
      "Document " ++ toString 1 ++ " (Source: Unknown):\n" ++ pyStrip " x " :=
  (C10_theorem (" x ") [] 1).1 rfl

/-! ## Claim C1 -/

/-- C1, counterexample: against a concrete deterministic store, a single
`query` call issues two similarity-search requests (the direct
`similarity_search` for the returned documents and the chain retriever's
search for the generation context), not exactly one. -/
theorem C1_counterexample :
    retrievalCount (query chainA vsA genA 0 1 "q").2 = 2 ∧
    retrievalCount (query chainA vsA genA 0 1 "q").2 ≠ 1 := by
  constructor <;> decide

/-- C1, amended: a successful `query` issues exactly two retrieval
(similarity-search) requests — one direct and one inside the chain — both
with the same question text and the same `k`; the single generation call
comes after both retrievals and uses the same question text, and (the store
being deterministic) the documents in the `QueryResult` are exactly the
documents whose formatted context was passed to the generation service. -/
theorem C1_theorem (ch : TechnicalQAChain) (vs : VectorStore) (gen : GenService)
    (t0 t1 : ℚ) (q : String) (docs : List Document)
    (h : vs.search q ch.docs_to_retrieve = .ok docs) :
    query ch vs gen t0 t1 q =
      (.ok [("answer", .str (String.join (gen.fragments
               (formatPrompt ch.promptTmpl (format_docs docs) q)))),
            ("latency", .num (t1 - t0)),
            ("documents", .docList docs)],
       [.retrieval q ch.docs_to_retrieve, .retrieval q ch.docs_to_retrieve,
        .generation (formatPrompt ch.promptTmpl (format_docs docs) q)]) := by
  simp [query, chain_invoke, h]

/-- C1, witness: the amended statement at the concrete fixtures. -/
theorem C1_witness :
    query chainA vsA genA 0 1 "q" =
      (.ok [("answer", .str (String.join (genA.fragments
               (formatPrompt chainA.promptTmpl (format_docs [docA]) "q")))),
            ("latency", .num (1 - 0)),
            ("documents", .docList [docA])],
       [.retrieval "q" chainA.docs_to_retrieve,
        .retrieval "q" chainA.docs_to_retrieve,
        .generation (formatPrompt chainA.promptTmpl (format_docs [docA]) "q")]) :=
  C1_theorem chainA vsA genA 0 1 "q" [docA] rfl

/-! ## Claim C3 -/

/-- C3, counterexample: with a store whose similarity search raises a provider
exception, `query` fails — but with that provider exception propagated
unchanged, not with a `RetrievalError` (no such class exists in the code). -/
theorem C3_counterexample :
    isRetrievalErrorResult (query chainA vsErr genA 0 1 "q").1 = false ∧
    query chainA vsErr genA 0 1 "q" =
      (.error (.providerError "embedding service unreachable"),
       [.retrieval "q" 4]) := by
  constructor <;> rfl

/-- C3, amended: if the retrieval step fails, `query` fails by propagating the
retrieval step's exception unchanged (rather than wrapping it in a
`RetrievalError`), and the generation service is never invoked: the trace up
to the propagated error contains zero generation calls. -/
theorem C3_theorem (ch : TechnicalQAChain) (vs : VectorStore) (gen : GenService)
    (t0 t1 : ℚ) (q : String) (e : PyError)
    (h : vs.search q ch.docs_to_retrieve = .error e) :
    query ch vs gen t0 t1 q = (.error e, [.retrieval q ch.docs_to_retrieve]) ∧
    generationCount (query ch vs gen t0 t1 q).2 = 0 := by
  refine ⟨by simp [query, h], ?_⟩
  simp [query, h, generationCount, Event.isGeneration]

/-- C3, witness: the failing store fixture. -/
theorem C3_witness :
    query chainA vsErr genA 0 1 "q" =
      (.error (.providerError "embedding service unreachable"),
       [.retrieval "q" chainA.docs_to_retrieve]) ∧
    generationCount (query chainA vsErr genA 0 1 "q").2 = 0 :=
  C3_theorem chainA vsErr genA 0 1 "q" (.providerError "embedding service unreachable") rfl

/-! ## Claim C4 -/

/-- C4, counterexample: at concrete fixtures, the record a successful `query`
returns has exactly the keys `answer`, `latency`, `documents` — there is no
`latency_seconds` field (looking it up yields nothing), so the claimed field
set `{answer, latency_seconds, documents}` is wrong. -/
theorem C4_counterexample :
    resultKeys (query chainA vsA genA 0 1 "q").1 =
      .ok ["answer", "latency", "documents"] ∧
    resultLookup (query chainA vsA genA 0 1 "q").1 "latency_seconds" = none := by
  constructor <;> rfl

/-- C4, amended: a successful `query` returns a record with exactly the fields
`{answer, latency, documents}` (the elapsed-time field is named `latency`,
not `latency_seconds`), where `answer` is the generation service's complete
output for the prompt, `latency` is the elapsed wall-clock time between the
clock reading taken at entry and the one taken after generation completes,
and `documents` is the ordered sequence of retrieved documents. -/
theorem C4_theorem (ch : TechnicalQAChain) (vs : VectorStore) (gen : GenService)
    (start_time end_time : ℚ) (q : String) (docs : List Document)
    (h : vs.search q ch.docs_to_retrieve = .ok docs) :
    ∃ res, (query ch vs gen start_time end_time q).1 = .ok res ∧
      res.map Prod.fst = ["answer", "latency", "documents"] ∧
      pyLookup res "answer" = some (.str (String.join (gen.fragments
        (formatPrompt ch.promptTmpl (format_docs docs) q)))) ∧
      pyLookup res "latency" = some (.num (end_time - start_time)) ∧
      pyLookup res "documents" = some (.docList docs) := by
  refine ⟨[("answer", .str (String.join (gen.fragments
      (formatPrompt ch.promptTmpl (format_docs docs) q)))),
    ("latency", .num (end_time - start_time)),
    ("documents", .docList docs)], ?_, ?_, ?_, ?_, ?_⟩
  · simp [query, chain_invoke, h]
  · rfl
  · rfl
  · rfl
  · rfl

/-- C4, witness: the amended statement at the concrete fixtures. -/
theorem C4_witness :
    ∃ res, (query chainA vsA genA 0 1 "q").1 = .ok res ∧
      res.map Prod.fst = ["answer", "latency", "documents"] ∧
      pyLookup res "answer" = some (.str (String.join (genA.fragments
        (formatPrompt chainA.promptTmpl (format_docs [docA]) "q")))) ∧
      pyLookup res "latency" = some (.num (1 - 0)) ∧
      pyLookup res "documents" = some (.docList [docA]) :=
  C4_theorem chainA vsA genA 0 1 "q" [docA] rfl

/-! ## Claim C5 -/

/-- C5: for a fixed question and a fixed underlying generation output (the
`GenService`'s fragments for the prompt), concatenating all fragments yielded
by `stream_query` equals the string under the `answer` field returned by
`query`, given the same prompt (same chain configuration) and the same
store. -/
theorem C5_theorem (ch : TechnicalQAChain) (vs : VectorStore) (gen : GenService)
    (t0 t1 : ℚ) (q : String) (docs : List Document)
    (h : vs.search q ch.docs_to_retrieve = .ok docs) :
    ∃ frags answer,
      (stream_query ch vs gen q).1 = .ok frags ∧
      resultLookup (query ch vs gen t0 t1 q).1 "answer" = some (.str answer) ∧
      answer = String.join frags := by
  refine ⟨gen.fragments (formatPrompt ch.promptTmpl (format_docs docs) q),
    String.join (gen.fragments (formatPrompt ch.promptTmpl (format_docs docs) q)),
    ?_, ?_, rfl⟩
  · simp [stream_query, chain_stream, h]
  · simp [query, chain_invoke, h, resultLookup, pyLookup]

/-- C5, witness: the statement at the concrete fixtures. -/
theorem C5_witness :
    ∃ frags answer,
      (stream_query chainA vsA genA "q").1 = .ok frags ∧
      resultLookup (query chainA vsA genA 0 1 "q").1 "answer" = some (.str answer) ∧
      answer = String.join frags :=
  C5_theorem chainA vsA genA 0 1 "q" [docA] rfl

/-! ## Claim C6 -/

/-- C6: a pipeline constructed in fast mode has `k = 3`, the fast template and
the cheaper model fixed at construction; every retrieval request issued by
its `query` or `stream_query` asks for at most `k = 3` documents, and every
generation call uses a prompt built from the fast template (never the
standard chain-of-thought template — the two templates differ); a pipeline
constructed in standard mode has the chain-of-thought template, never the
fast one. The configuration record is immutable: queries take it as input
and return no modified configuration. -/
theorem C6_theorem (t t' : ℚ) (vs : VectorStore) (gen : GenService)
    (t0 t1 : ℚ) (q : String) :
    (FastTechnicalQAChain_init t).docs_to_retrieve = 3 ∧
    (FastTechnicalQAChain_init t).promptTmpl = FAST_COT_TEMPLATE ∧
    (FastTechnicalQAChain_init t).model_name = "gpt-3.5-turbo" ∧
    (∀ m k, (TechnicalQAChain_init m t' k).promptTmpl = CHAIN_OF_THOUGHT_TEMPLATE) ∧
    FAST_COT_TEMPLATE ≠ CHAIN_OF_THOUGHT_TEMPLATE ∧
    (∀ e ∈ (query (FastTechnicalQAChain_init t) vs gen t0 t1 q).2 ++
        (stream_query (FastTechnicalQAChain_init t) vs gen q).2,
      (∀ q' k, e = .retrieval q' k → k ≤ 3) ∧
      (∀ p, e = .generation p →
        ∃ ctx, p = formatPrompt FAST_COT_TEMPLATE ctx q)) := by
  refine ⟨rfl, rfl, rfl, fun m k => rfl, by decide, ?_⟩
  intro e he
  have hk3 : (FastTechnicalQAChain_init t).docs_to_retrieve = 3 := rfl
  rcases hs : vs.search q (FastTechnicalQAChain_init t).docs_to_retrieve
    with e0 | docs
  · simp only [query, stream_query, chain_stream, chain_invoke, hs,
      List.mem_append, List.mem_cons, List.not_mem_nil, or_false] at he
    rcases he with rfl | rfl <;>
      exact ⟨fun q' k hek => by injection hek with h1 h2; omega,
             fun p hpe => absurd hpe (by simp)⟩
  · simp only [query, stream_query, chain_stream, chain_invoke, hs,
      List.mem_append, List.mem_cons, List.not_mem_nil, or_false] at he
    rcases he with (rfl | rfl | rfl) | (rfl | rfl) <;>
      refine ⟨fun q' k hek => ?_, fun p hpe => ?_⟩ <;>
      first
        | (injection hek with h1 h2; omega)
        | (injection hpe with h3; exact ⟨format_docs docs, by rw [← h3]; rfl⟩)
        | exact absurd hek (by simp)
        | exact absurd hpe (by simp)

/-- C6, witness: the fast fixture's retrieval events ask for `k = 3 ≤ 3`. -/
theorem C6_witness :
    (FastTechnicalQAChain_init (0 : ℚ)).docs_to_retrieve = 3 ∧ (3 : Nat) ≤ 3 := by
  have h := C6_theorem 0 0 vsA genA 0 1 "q"
  refine ⟨h.1, ?_⟩
  exact (h.2.2.2.2.2 (.retrieval "q" 3) (by decide)).1 "q" 3 rfl

/-! ## Claim C9: length bound and shape of the chunker output

The running total `_merge_splits` maintains is the summed length of the
current window (the merge separator is `""` because `keep_separator=True`),
so the flushed chunks never exceed `chunk_size` once every good split is
shorter than `chunk_size`; character-level splits make every level's splits
eventually short enough. -/

def sumLen (l : List String) : Int :=
  (l.map strLen).sum

theorem sumLen_nil : sumLen [] = 0 := rfl

theorem sumLen_cons (x : String) (l : List String) :
    sumLen (x :: l) = strLen x + sumLen l := by
  simp [sumLen]

theorem sumLen_append (l1 l2 : List String) :
    sumLen (l1 ++ l2) = sumLen l1 + sumLen l2 := by
  simp [sumLen]

theorem strLen_nonneg (s : String) : 0 ≤ strLen s := by
  simp [strLen]

theorem sumLen_nonneg (l : List String) : 0 ≤ sumLen l := by
  induction l with
  | nil => simp [sumLen_nil]
  | cons x l ih =>
    rw [sumLen_cons]
    have := strLen_nonneg x
    omega

theorem strLen_pos (s : String) (h : s ≠ "") : 0 < strLen s := by
  cases s with
  | mk data =>
    cases data with
    | nil => exact absurd rfl h
    | cons c cs =>
      simp [strLen, String.length]

theorem strLen_empty : strLen "" = 0 := rfl

theorem strLen_append (a b : String) : strLen (a ++ b) = strLen a + strLen b := by
  simp [strLen, String.length_append]

theorem stripChars_length_le (l : List Char) :
    (stripChars l).length ≤ l.length := by
  unfold stripChars
  have h1 := (List.dropWhile_sublist (l := l) pyIsSpace).length_le
  have h2 := (List.dropWhile_sublist
    (l := (l.dropWhile pyIsSpace).reverse) pyIsSpace).length_le
  simp only [List.length_reverse] at h1 h2 ⊢
  omega

theorem strLen_pyStrip_le (s : String) : strLen (pyStrip s) ≤ strLen s := by
  have h := stripChars_length_le s.data
  simp only [strLen, pyStrip, String.length]
  omega

theorem strLen_pyJoin_empty (l : List String) :
    strLen (pyJoin "" l) = sumLen l := by
  induction l with
  | nil => rfl
  | cons x l ih =>
    cases l with
    | nil => simp [pyJoin, sumLen_cons, sumLen_nil]
    | cons y rest =>
      rw [show pyJoin "" (x :: y :: rest) = x ++ "" ++ pyJoin "" (y :: rest) from rfl]
      rw [sumLen_cons, ← ih, strLen_append, strLen_append, strLen_empty]
      omega

theorem joinDocs_length_le (current : List String) (doc : String)
    (h : joinDocs current "" = some doc) : strLen doc ≤ sumLen current := by
  by_cases he : pyStrip (pyJoin "" current) = ""
  · have hnone : joinDocs current "" = none := by simp [joinDocs, he]
    rw [hnone] at h
    cases h
  · have hsome : joinDocs current "" = some (pyStrip (pyJoin "" current)) := by
      simp [joinDocs, he]
    rw [hsome] at h
    cases h
    rw [← strLen_pyJoin_empty]
    exact strLen_pyStrip_le _

theorem appendJoin_bound (cs : Int) (docs current : List String)
    (hdocs : ∀ x ∈ docs, strLen x ≤ cs) (hcur : sumLen current ≤ cs) :
    ∀ x ∈ appendJoin docs current "", strLen x ≤ cs := by
  unfold appendJoin
  cases hj : joinDocs current "" with
  | none => exact hdocs
  | some doc =>
    intro x hx
    rcases List.mem_append.1 hx with hx | hx
    · exact hdocs x hx
    · have hxd : x = doc := by simpa using hx
      subst hxd
      exact le_trans (joinDocs_length_le current x hj) hcur

theorem popWhile_spec (cs co lenD : Int) :
    ∀ (current : List String) (total : Int),
      (∀ x ∈ current, 0 < strLen x) →
      total = sumLen current →
      (∀ x ∈ (popWhile cs co 0 lenD current total).1, 0 < strLen x) ∧
      (popWhile cs co 0 lenD current total).2 =
        sumLen (popWhile cs co 0 lenD current total).1 ∧
      ((popWhile cs co 0 lenD current total).1 = [] ∨
       ((popWhile cs co 0 lenD current total).2 ≤ co ∧
        (popWhile cs co 0 lenD current total).2 + lenD ≤ cs)) := by
  intro current
  induction current with
  | nil =>
    intro total hpos htot
    refine ⟨by simp [popWhile], ?_, Or.inl (by simp [popWhile])⟩
    simp [popWhile, htot, sumLen_nil]
  | cons c rest ih =>
    intro total hpos htot
    rw [sumLen_cons] at htot
    by_cases hcond : total > co ∨ (total + lenD + 0 > cs ∧ total > 0)
    · have hstep : popWhile cs co 0 lenD (c :: rest) total =
          popWhile cs co 0 lenD rest
            (total - (strLen c + if rest.length > 0 then 0 else 0)) := by
        rw [popWhile, if_pos hcond]
      rw [hstep]
      refine ih _ (fun x hx => hpos x (List.mem_cons_of_mem _ hx)) ?_
      rw [ite_self]
      omega
    · have hstep : popWhile cs co 0 lenD (c :: rest) total = (c :: rest, total) := by
        rw [popWhile, if_neg hcond]
      rw [hstep]
      push_neg at hcond
      have hc0 : 0 < strLen c := hpos c (List.mem_cons_self _ _)
      have hr0 : 0 ≤ sumLen rest := sumLen_nonneg rest
      refine ⟨hpos, by rw [sumLen_cons]; omega, Or.inr ⟨hcond.1, ?_⟩⟩
      by_cases hgt : total + lenD + 0 > cs
      · have := hcond.2 hgt
        omega
      · omega

theorem mergeLoop_cons (cs co : Int) (sep d : String)
    (rest docs current : List String) (total : Int) :
    mergeLoop cs co sep (d :: rest) docs current total =
      if total + strLen d + (if current.length > 0 then strLen sep else 0) > cs
          ∧ current.length > 0 then
        mergeLoop cs co sep rest (appendJoin docs current sep)
          ((popWhile cs co (strLen sep) (strLen d) current total).1 ++ [d])
          ((popWhile cs co (strLen sep) (strLen d) current total).2 + strLen d +
            (if (popWhile cs co (strLen sep) (strLen d) current total).1.length > 0
              then strLen sep else 0))
      else
        mergeLoop cs co sep rest docs (current ++ [d])
          (total + strLen d + (if current.length > 0 then strLen sep else 0)) :=
  rfl

theorem mergeLoop_bound (cs co : Int) :
    ∀ (splits docs current : List String) (total : Int),
      (∀ d ∈ splits, 0 < strLen d ∧ strLen d < cs) →
      (∀ x ∈ docs, strLen x ≤ cs) →
      (∀ x ∈ current, 0 < strLen x) →
      total = sumLen current →
      total ≤ cs →
      ∀ c ∈ mergeLoop cs co "" splits docs current total, strLen c ≤ cs := by
  intro splits
  induction splits with
  | nil =>
    intro docs current total hsp hdocs hcur htot hle c hc
    have hstep : mergeLoop cs co "" [] docs current total =
        appendJoin docs current "" := rfl
    rw [hstep] at hc
    exact appendJoin_bound cs docs current hdocs (by omega) c hc
  | cons d rest ih =>
    intro docs current total hsp hdocs hcur htot hle c hc
    have hd := hsp d (List.mem_cons_self _ _)
    have hrest : ∀ x ∈ rest, 0 < strLen x ∧ strLen x < cs :=
      fun x hx => hsp x (List.mem_cons_of_mem _ hx)
    rw [mergeLoop_cons] at hc
    simp only [strLen_empty, ite_self, Int.add_zero] at hc
    split at hc
    · rename_i hcond
      obtain ⟨hp1, hp2, hp3⟩ := popWhile_spec cs co (strLen d) current total hcur htot
      refine ih (appendJoin docs current "")
        ((popWhile cs co 0 (strLen d) current total).1 ++ [d])
        ((popWhile cs co 0 (strLen d) current total).2 + strLen d)
        hrest (appendJoin_bound cs docs current hdocs (by omega)) ?_ ?_ ?_ c hc
      · intro x hx
        rcases List.mem_append.1 hx with hx | hx
        · exact hp1 x hx
        · have hxd : x = d := by simpa using hx
          subst hxd
          exact hd.1
      · rw [sumLen_append, sumLen_cons, sumLen_nil, ← hp2]
        omega
      · rcases hp3 with hp3 | ⟨hp3a, hp3b⟩
        · rw [hp3, sumLen_nil] at hp2
          omega
        · omega
    · rename_i hcond
      refine ih docs (current ++ [d]) (total + strLen d)
        hrest hdocs ?_ ?_ ?_ c hc
      · intro x hx
        rcases List.mem_append.1 hx with hx | hx
        · exact hcur x hx
        · have hxd : x = d := by simpa using hx
          subst hxd
          exact hd.1
      · rw [sumLen_append, sumLen_cons, sumLen_nil]
        omega
      · by_cases hgt : total + strLen d > cs
        · have hB : ¬ current.length > 0 := fun hB => hcond ⟨hgt, hB⟩
          have hnil : current = [] := List.length_eq_zero.1 (by omega)
          rw [hnil, sumLen_nil] at htot
          omega
        · omega

theorem processPairs_bound (cs co : Int) (hcs : 1 ≤ cs) :
    ∀ (pairs : List (String × List String)) (good : List String),
      (∀ p ∈ pairs, 0 < strLen p.1) →
      (∀ p ∈ pairs, cs ≤ strLen p.1 → ∀ c ∈ p.2, strLen c ≤ cs) →
      (∀ g ∈ good, 0 < strLen g ∧ strLen g < cs) →
      ∀ c ∈ processPairs cs co pairs good, strLen c ≤ cs := by
  intro pairs
  induction pairs with
  | nil =>
    intro good h1 h2 hg c hc
    simp only [processPairs] at hc
    split at hc
    · simp at hc
    · exact mergeLoop_bound cs co good [] [] 0 hg (by simp) (by simp)
        (by rw [sumLen_nil]) (by omega) c hc
  | cons p rest ih =>
    rcases p with ⟨s, r⟩
    intro good h1 h2 hg c hc
    have hs1 : 0 < strLen s := h1 (s, r) (List.mem_cons_self _ _)
    have h1' : ∀ p ∈ rest, 0 < strLen p.1 :=
      fun p hp => h1 p (List.mem_cons_of_mem _ hp)
    have h2' : ∀ p ∈ rest, cs ≤ strLen p.1 → ∀ c ∈ p.2, strLen c ≤ cs :=
      fun p hp => h2 p (List.mem_cons_of_mem _ hp)
    simp only [processPairs] at hc
    split at hc
    · rename_i hlt
      refine ih (good ++ [s]) h1' h2' ?_ c hc
      intro g hgm
      rcases List.mem_append.1 hgm with hgm | hgm
      · exact hg g hgm
      · have hgs : g = s := by simpa using hgm
        subst hgs
        exact ⟨hs1, hlt⟩
    · rename_i hnlt
      rcases List.mem_append.1 hc with hc | hc
      · rcases List.mem_append.1 hc with hc | hc
        · split at hc
          · simp at hc
          · exact mergeLoop_bound cs co good [] [] 0 hg (by simp) (by simp)
              (by rw [sumLen_nil]) (by omega) c hc
        · exact h2 (s, r) (List.mem_cons_self _ _)
            (show cs ≤ strLen s by omega) c hc
      · exact ih [] h1' h2' (by simp) c hc

theorem splitWithSep_pos (text sep : String) :
    ∀ s ∈ splitWithSep text sep, 0 < strLen s := by
  intro s hs
  refine strLen_pos s ?_
  unfold splitWithSep at hs
  have hf := List.of_mem_filter hs
  simpa using hf

theorem splitWithSep_empty_sep_len (text : String) :
    ∀ s ∈ splitWithSep text "", strLen s = 1 := by
  intro s hs
  unfold splitWithSep at hs
  rw [if_pos rfl] at hs
  have hm := List.mem_of_mem_filter hs
  obtain ⟨ch, _, hch⟩ := List.mem_map.1 hm
  subst hch
  rfl

theorem chooseSepAux_nil_sep (text dflt : String) :
    ∀ seps, "" ∈ seps → (chooseSepAux text dflt seps).2 = [] →
      (chooseSepAux text dflt seps).1 = "" := by
  intro seps
  induction seps with
  | nil => intro hmem; simp at hmem
  | cons s ss ih =>
    intro hmem h2
    by_cases h1 : s = ""
    · simp [chooseSepAux, h1]
    · have hmem' : "" ∈ ss := by
        rcases List.mem_cons.1 hmem with h | h
        · exact absurd h.symm h1
        · exact h
      by_cases hocc : occursIn s text
      · have hss : ss = [] := by
          simpa [chooseSepAux, h1, hocc] using h2
        rw [hss] at hmem'
        simp at hmem'
      · have h2' : (chooseSepAux text dflt ss).2 = [] := by
          simpa [chooseSepAux, h1, hocc] using h2
        have := ih hmem' h2'
        simpa [chooseSepAux, h1, hocc] using this

theorem chooseSepAux_cons_mem (text dflt : String) :
    ∀ seps s1 rest, "" ∈ seps →
      (chooseSepAux text dflt seps).2 = s1 :: rest → "" ∈ s1 :: rest := by
  intro seps
  induction seps with
  | nil => intro s1 rest hmem; simp at hmem
  | cons s ss ih =>
    intro s1 rest hmem h2
    by_cases h1 : s = ""
    · simp [chooseSepAux, h1] at h2
    · have hmem' : "" ∈ ss := by
        rcases List.mem_cons.1 hmem with h | h
        · exact absurd h.symm h1
        · exact h
      by_cases hocc : occursIn s text
      · have hss : ss = s1 :: rest := by
          simpa [chooseSepAux, h1, hocc] using h2
        rw [← hss]
        exact hmem'
      · exact ih s1 rest hmem'
          (by simpa [chooseSepAux, h1, hocc] using h2)

theorem chooseSep_nil_sep (separators : List String) (text : String)
    (hmem : "" ∈ separators) (h2 : (chooseSep separators text).2 = []) :
    (chooseSep separators text).1 = "" :=
  chooseSepAux_nil_sep text _ separators hmem h2

theorem chooseSep_rest_mem (separators : List String) (text : String)
    (hmem : "" ∈ separators) (hne : (chooseSep separators text).2 ≠ []) :
    "" ∈ (chooseSep separators text).2 := by
  rcases hp : (chooseSep separators text).2 with _ | ⟨s1, rest⟩
  · exact absurd hp hne
  · exact chooseSepAux_cons_mem text _ separators s1 rest hmem hp

theorem splitTextRec_bound_aux :
    ∀ (n : Nat) (seps : List String), seps.length ≤ n → "" ∈ seps →
      ∀ (cs co : Int), 1 ≤ cs → ∀ (text : String),
        ∀ c ∈ splitTextRec cs co seps text, strLen c ≤ cs := by
  intro n
  induction n with
  | zero =>
    intro seps hlen hmem
    have hnil : seps = [] := List.length_eq_zero.1 (Nat.le_zero.1 hlen)
    rw [hnil] at hmem
    simp at hmem
  | succ n ih =>
    intro seps hlen hmem cs co hcs text c hc
    rw [splitTextRec] at hc
    split at hc
    · rename_i hniless
      have hsep : (chooseSep seps text).1 = "" := chooseSep_nil_sep seps text hmem hniless
      rw [hsep] at hc
      refine processPairs_bound cs co hcs _ [] ?_ ?_ (by simp) c hc
      · intro p hp
        obtain ⟨s, hs, hps⟩ := List.mem_map.1 hp
        subst hps
        exact splitWithSep_pos text "" s hs
      · intro p hp hcsle cc hcc
        obtain ⟨s, hs, hps⟩ := List.mem_map.1 hp
        subst hps
        have hlen1 : strLen s = 1 := splitWithSep_empty_sep_len text s hs
        have hccs : cc = s := by simpa using hcc
        subst hccs
        simp only at hcsle ⊢
        omega
    · rename_i hne
      have hmem' : "" ∈ (chooseSep seps text).2 := chooseSep_rest_mem seps text hmem hne
      have hlt : (chooseSep seps text).2.length < seps.length :=
        chooseSep_rest_length_ne seps text hne
      refine processPairs_bound cs co hcs _ [] ?_ ?_ (by simp) c hc
      · intro p hp
        obtain ⟨s, hs, hps⟩ := List.mem_map.1 hp
        subst hps
        exact splitWithSep_pos text _ s hs
      · intro p hp hcsle cc hcc
        obtain ⟨s, hs, hps⟩ := List.mem_map.1 hp
        subst hps
        exact ih (chooseSep seps text).2 (by omega) hmem' cs co hcs s cc hcc

theorem split_text_bound (ts : TextSplitterParams)
    (hmem : "" ∈ ts.separators) (hcs : 1 ≤ ts.chunk_size) :
    ∀ (text : String), ∀ c ∈ split_text ts text, strLen c ≤ ts.chunk_size :=
  fun text =>
    splitTextRec_bound_aux ts.separators.length ts.separators (le_refl _) hmem
      ts.chunk_size ts.chunk_overlap hcs text

/-- C9: for every input document sequence and valid chunking parameters
(`chunk_size > 0`, `0 ≤ chunk_overlap < chunk_size`), every chunk produced by
the chunker has content of length at most `chunk_size` (with the default
separator list the empty-string separator always permits a character-level
split, so the bound holds without exception), each chunk carries the metadata
— in particular `source` — of the document it was derived from, and the
output is the in-order concatenation, document by document, of each
document's in-order chunks. -/
theorem C9_theorem (chunk_size chunk_overlap : Int) (dp : DocumentProcessor)
    (hinit : DocumentProcessor_init chunk_size chunk_overlap = .ok dp)
    (hcs : 1 ≤ chunk_size) (hco : 0 ≤ chunk_overlap)
    (hlt : chunk_overlap < chunk_size) (documents : List Document) :
    (∀ chunk ∈ chunk_documents dp documents,
      strLen chunk.page_content ≤ chunk_size) ∧
    chunk_documents dp documents =
      (documents.map fun d =>
        (split_text dp.text_splitter d.page_content).map fun c =>
          Document.mk c d.metadata).flatten := by
  have hdp : dp =
      { chunk_size := chunk_size, chunk_overlap := chunk_overlap,
        text_splitter := { chunk_size := chunk_size,
                           chunk_overlap := chunk_overlap,
                           separators := DEFAULT_SEPARATORS } } := by
    unfold DocumentProcessor_init RecursiveCharacterTextSplitter_init at hinit
    rw [if_neg (by omega)] at hinit
    cases hinit
    rfl
  subst hdp
  have hshape : ∀ documents : List Document,
      chunk_documents
        { chunk_size := chunk_size, chunk_overlap := chunk_overlap,
          text_splitter := { chunk_size := chunk_size,
                             chunk_overlap := chunk_overlap,
                             separators := DEFAULT_SEPARATORS } } documents =
      (documents.map fun d =>
        (split_text { chunk_size := chunk_size, chunk_overlap := chunk_overlap,
                      separators := DEFAULT_SEPARATORS } d.page_content).map
          fun c => Document.mk c d.metadata).flatten := by
    intro docs
    unfold chunk_documents split_documents create_documents
    rw [List.zip_map']
    rw [List.map_map]
    rfl
  refine ⟨?_, hshape documents⟩
  intro chunk hchunk
  rw [hshape documents] at hchunk
  rw [List.mem_flatten] at hchunk
  obtain ⟨l, hl, hcl⟩ := hchunk
  obtain ⟨d, _, hdl⟩ := List.mem_map.1 hl
  subst hdl
  obtain ⟨ctext, hctext, hchunkeq⟩ := List.mem_map.1 hcl
  subst hchunkeq
  exact split_text_bound _ (by simp [DEFAULT_SEPARATORS]) hcs d.page_content
    ctext hctext

/-- C9, witness: the 26-letter alphabet with `chunk_size = 10`,
`chunk_overlap = 3`. -/
def docAlpha : Document :=
  { page_content := "abcdefghijklmnopqrstuvwxyz"
    metadata := [("source", "alphabet.txt")] }

def dpTen : DocumentProcessor :=
  { chunk_size := 10, chunk_overlap := 3,
    text_splitter := { chunk_size := 10, chunk_overlap := 3,
                       separators := DEFAULT_SEPARATORS } }

theorem C9_witness :
    (∀ chunk ∈ chunk_documents dpTen [docAlpha],
      strLen chunk.page_content ≤ 10) ∧
    chunk_documents dpTen [docAlpha] =
      ([docAlpha].map fun d =>
        (split_text dpTen.text_splitter d.page_content).map
          fun c => Document.mk c d.metadata).flatten :=
  C9_theorem 10 3 dpTen rfl (by norm_num) (by norm_num) (by norm_num) [docAlpha]

end DocIntel
